import Mathlib

/-!
Shallow embedding of `nmigen/vendor/lattice_ecp5.py` (class `LatticeECP5Platform`).

The module-building side effects of the Python code (`m.submodules += Instance(...)`)
are modelled as explicit lists of `Instance` records produced in source order.
Python runtime failures (`NameError` for an unbound name, `assert False`,
`KeyError` on a dict lookup, indexing `None`) are modelled with `Except String`.
-/

namespace ECP5

/-- Model of `pin.dir` of an nmigen `Pin`: one of the strings "i", "o", "oe", "io". -/
inductive PinDir where
  | i | o | oe | io
deriving DecidableEq, Repr

/-- Which physical port object a net belongs to: a single-ended `port`,
or the `p_port` / `n_port` halves of a differential pair. -/
inductive PortTag where
  | single | pos | neg
deriving DecidableEq, Repr

/-- A net-level value, as referenced by the Python code when binding instance
ports: pin record fields (`pin.i`, `pin.o`, `pin.oe`, `pin.i0`, ...), the fresh
`Signal(...)` objects created inside `_get_xdr_buffer` (named
`{pin.name}_xdr_i` / `_xdr_o` / `_xdr_t`), the fresh `Signal.like` objects
created by `get_ixor`/`get_oxor` (suffix `_x0`/`_x1`), the expression `~v`,
the clock references `pin.i_clk` / `pin.o_clk`, and physical port objects. -/
inductive Val where
  | pinField (f : String)
  | xdrSig (f : String)
  | xored (base : Val) (invert : Bool)
  | notV (v : Val)
  | iClk | oClk
  | portV (tag : PortTag)
deriving DecidableEq, Repr

/-- A value bound to a named port of an `Instance(...)`: either a single bit
`v[idx]`, a whole signal (e.g. `i_SCLK=clk`, `i_T=t`), or `Const(n)`. -/
inductive Expr where
  | bit (v : Val) (idx : Nat)
  | whole (v : Val)
  | constE (n : Nat)
deriving DecidableEq, Repr

/-- A primitive instantiation `Instance(kind, p_*=params, */o_*=ports)`. -/
structure Instance where
  kind : String
  params : List (String × Nat)
  ports : List (String × Expr)
deriving DecidableEq, Repr

/-- The abstract `Pin` descriptor (nmigen `Pin`): name, direction string,
width, and xdr level. -/
structure Pin where
  name : String
  dir : PinDir
  width : Nat
  xdr : Nat
deriving DecidableEq, Repr

/-- Python `"i" in pin.dir` (substring test on the direction string). -/
def hasI : PinDir → Bool
  | .i => true
  | .io => true
  | _ => false

/-- Python `"o" in pin.dir` (substring test; true for "o", "oe", "io"). -/
def hasO : PinDir → Bool
  | .o => true
  | .oe => true
  | .io => true
  | _ => false

/-- Python `pin.dir in ("oe", "io")`. -/
def hasT : PinDir → Bool
  | .oe => true
  | .io => true
  | _ => false

/-- Model of `len(v)` for the signals handled here: `pin.oe` and the `_xdr_t` signal
are `Signal(1)`; every other pin field and `_xdr_*` signal has `pin.width`
bits; `Signal.like` preserves the width of its template; `~v` preserves the
width of `v`. -/
def sigWidth (p : Pin) : Val → Nat
  | .pinField f => if f = "oe" then 1 else p.width
  | .xdrSig f => if f = "t" then 1 else p.width
  | .xored base _ => sigWidth p base
  | .notV v => sigWidth p v
  | .iClk => 1
  | .oClk => 1
  | .portV _ => 0

/-- Model of `get_ireg(clk, d, q)`: one `IFS1P3DX` per bit of `q`. -/
def get_ireg (p : Pin) (clk d q : Val) : List Instance :=
  (List.range (sigWidth p q)).map fun bit =>
    { kind := "IFS1P3DX", params := [],
      ports := [("i_SCLK", .whole clk), ("i_SP", .constE 1), ("i_CD", .constE 0),
                ("i_D", .bit d bit), ("o_Q", .bit q bit)] }

/-- Model of `get_oreg(clk, d, q)`: one `OFS1P3DX` per bit of `q`. -/
def get_oreg (p : Pin) (clk d q : Val) : List Instance :=
  (List.range (sigWidth p q)).map fun bit =>
    { kind := "OFS1P3DX", params := [],
      ports := [("i_SCLK", .whole clk), ("i_SP", .constE 1), ("i_CD", .constE 0),
                ("i_D", .bit d bit), ("o_Q", .bit q bit)] }

/-- Model of `get_iddr(sclk, d, q0, q1)`: one `IDDRX1F` per bit of `d`. -/
def get_iddr (p : Pin) (sclk d q0 q1 : Val) : List Instance :=
  (List.range (sigWidth p d)).map fun bit =>
    { kind := "IDDRX1F", params := [],
      ports := [("i_SCLK", .whole sclk), ("i_RST", .constE 0),
                ("i_D", .bit d bit), ("o_Q0", .bit q0 bit), ("o_Q1", .bit q1 bit)] }

/-- Model of `get_oddr(sclk, d0, d1, q)`: one `ODDRX1F` per bit of `q`. -/
def get_oddr (p : Pin) (sclk d0 d1 q : Val) : List Instance :=
  (List.range (sigWidth p q)).map fun bit =>
    { kind := "ODDRX1F", params := [],
      ports := [("i_SCLK", .whole sclk), ("i_RST", .constE 0),
                ("i_D0", .bit d0 bit), ("i_D1", .bit d1 bit), ("o_Q", .bit q bit)] }

/-- The value returned by `get_ixor(z, invert)` / `get_oxor(a, invert)`:
the argument itself when `invert is None`, otherwise the fresh
`Signal.like` object. -/
def xorVal (z : Val) (invert : Option Bool) : Val :=
  match invert with
  | none => z
  | some b => .xored z b

/-- The instances appended by `get_ixor(z, invert)`: when `invert` is not
`None`, one `LUT4` per bit of `z` with `i_A=a[bit]`, `o_Z=z[bit]`, where `a`
is the fresh signal (so the LUT drives `z` from `a`). -/
def get_ixor (p : Pin) (z : Val) (invert : Option Bool) : List Instance :=
  match invert with
  | none => []
  | some inv =>
    (List.range (sigWidth p z)).map fun bit =>
      { kind := "LUT4", params := [("p_INIT", if inv then 0x5555 else 0xaaaa)],
        ports := [("i_A", .bit (.xored z inv) bit), ("o_Z", .bit z bit)] }

/-- The instances appended by `get_oxor(a, invert)`: when `invert` is not
`None`, one `LUT4` per bit of `a` with `i_A=a[bit]`, `o_Z=z[bit]`, where `z`
is the fresh signal (so the LUT drives the fresh `z` from `a`). -/
def get_oxor (p : Pin) (a : Val) (invert : Option Bool) : List Instance :=
  match invert with
  | none => []
  | some inv =>
    (List.range (sigWidth p a)).map fun bit =>
      { kind := "LUT4", params := [("p_INIT", if inv then 0x5555 else 0xaaaa)],
        ports := [("i_A", .bit a bit), ("o_Z", .bit (.xored a inv) bit)] }

/-- Result of `_get_xdr_buffer`: the appended instances and the returned
`(i, o, t)` triple (`None` modelled as `Option.none`). -/
structure XdrResult where
  insts : List Instance
  i : Option Val
  o : Option Val
  t : Option Val
deriving DecidableEq, Repr

/-- Model of `_get_xdr_buffer(m, pin, i_invert, o_invert)`.

Faithful to the source, including two of its runtime failures:
* for `pin.xdr == 0` and `pin.dir in ("oe", "io")`, the line `t = ~pin_oe`
  refers to the name `pin_oe`, which is bound nowhere in the function or its
  enclosing scopes (every other use spells it `pin.oe`), so Python raises
  `NameError` there;
* for `pin.xdr` outside {0, 1, 2}, `assert False` raises `AssertionError`.
-/
def _get_xdr_buffer (p : Pin) (i_invert o_invert : Option Bool) :
    Except String XdrResult :=
  let pin_i := xorVal (.pinField "i") i_invert
  let pin_i0 := xorVal (.pinField "i0") i_invert
  let pin_i1 := xorVal (.pinField "i1") i_invert
  let pin_o := xorVal (.pinField "o") o_invert
  let pin_o0 := xorVal (.pinField "o0") o_invert
  let pin_o1 := xorVal (.pinField "o1") o_invert
  let invInsts : List Instance :=
    (if hasI p.dir then
      if p.xdr < 2 then get_ixor p (.pinField "i") i_invert
      else if p.xdr = 2 then
        get_ixor p (.pinField "i0") i_invert ++ get_ixor p (.pinField "i1") i_invert
      else []
    else []) ++
    (if hasO p.dir then
      if p.xdr < 2 then get_oxor p (.pinField "o") o_invert
      else if p.xdr = 2 then
        get_oxor p (.pinField "o0") o_invert ++ get_oxor p (.pinField "o1") o_invert
      else []
    else [])
  let i : Option Val := if hasI p.dir then some (.xdrSig "i") else none
  let o : Option Val := if hasO p.dir then some (.xdrSig "o") else none
  let t : Option Val := if hasT p.dir then some (.xdrSig "t") else none
  if p.xdr = 0 then
    if hasT p.dir then
      .error "NameError: name 'pin_oe' is not defined"
    else
      .ok { insts := invInsts
            i := if hasI p.dir then some pin_i else i
            o := if hasO p.dir then some pin_o else o
            t := t }
  else if p.xdr = 1 then
    .ok { insts := invInsts ++
            (if hasI p.dir then get_ireg p .iClk (.xdrSig "i") pin_i else []) ++
            (if hasO p.dir then get_oreg p .oClk pin_o (.xdrSig "o") else []) ++
            (if hasT p.dir then
              get_oreg p .oClk (.notV (.pinField "oe")) (.xdrSig "t") else [])
          i := i, o := o, t := t }
  else if p.xdr = 2 then
    .ok { insts := invInsts ++
            (if hasI p.dir then get_iddr p .iClk (.xdrSig "i") pin_i0 pin_i1 else []) ++
            (if hasO p.dir then get_oddr p .oClk pin_o0 pin_o1 (.xdrSig "o") else []) ++
            (if hasT p.dir then
              get_oreg p .oClk (.notV (.pinField "oe")) (.xdrSig "t") else [])
          i := i, o := o, t := t }
  else
    .error "AssertionError"

/-- Python `True if invert else None`, as each emitter passes its `invert` flag. -/
def invertArg (invert : Bool) : Option Bool :=
  if invert then some true else none

/-- Model of `_check_feature(..., valid_xdrs=(0, 1, 2), ...)`: raises unless
`pin.xdr in (0, 1, 2)`. -/
def checkFeature (p : Pin) : Except String Unit :=
  if p.xdr = 0 ∨ p.xdr = 1 ∨ p.xdr = 2 then .ok () else
    .error "feature unsupported"

/-- Model of `get_input(pin, port, attrs, invert)`.

Faithful to the source: the unpacking line reads `t, o, t =
self._get_xdr_buffer(...)`, so the name `i` is never bound in this method;
the loop body `Instance("IB", i_I=port[bit], o_O=i[bit])` therefore raises
`NameError` on its first iteration whenever `len(port) > 0`. -/
def get_input (p : Pin) (portW : Nat) (invert : Bool) :
    Except String (List Instance) := do
  let () ← checkFeature p
  let r ← _get_xdr_buffer p (invertArg invert) none
  if portW = 0 then .ok r.insts
  else .error "NameError: name 'i' is not defined"

/-- Model of `get_diff_input(pin, p_port, n_port, attrs, invert)`: one `IB` per bit of
`p_port`, with `i_I=p_port[bit]` and `o_O=i[bit]` (indexing a `None` result
is a Python `TypeError`). -/
def get_diff_input (p : Pin) (portW : Nat) (invert : Bool) :
    Except String (List Instance) := do
  let () ← checkFeature p
  let r ← _get_xdr_buffer p (invertArg invert) none
  match r.i with
  | none => .error "TypeError: 'NoneType' object is not subscriptable"
  | some iv =>
    .ok (r.insts ++ (List.range portW).map fun bit =>
      { kind := "IB", params := [],
        ports := [("i_I", .bit (.portV .pos) bit), ("o_O", .bit iv bit)] })

/-- Model of `get_diff_output(pin, p_port, n_port, attrs, invert)`: one `OB` per bit
of `p_port`, with `i_I=o[bit]` and `o_O=p_port[bit]`. -/
def get_diff_output (p : Pin) (portW : Nat) (invert : Bool) :
    Except String (List Instance) := do
  let () ← checkFeature p
  let r ← _get_xdr_buffer p none (invertArg invert)
  match r.o with
  | none => .error "TypeError: 'NoneType' object is not subscriptable"
  | some ov =>
    .ok (r.insts ++ (List.range portW).map fun bit =>
      { kind := "OB", params := [],
        ports := [("i_I", .bit ov bit), ("o_O", .bit (.portV .pos) bit)] })

/-- Model of `get_diff_tristate(pin, p_port, n_port, attrs, invert)`: one `OBZ` per
bit of `p_port`, with `i_T=t`, `i_I=o[bit]`, `o_O=p_port[bit]`. -/
def get_diff_tristate (p : Pin) (portW : Nat) (invert : Bool) :
    Except String (List Instance) := do
  let () ← checkFeature p
  let r ← _get_xdr_buffer p none (invertArg invert)
  match r.o, r.t with
  | some ov, some tv =>
    .ok (r.insts ++ (List.range portW).map fun bit =>
      { kind := "OBZ", params := [],
        ports := [("i_T", .whole tv), ("i_I", .bit ov bit),
                  ("o_O", .bit (.portV .pos) bit)] })
  | _, _ => .error "TypeError: 'NoneType' object is not subscriptable"

/-- Model of `get_diff_input_output(pin, p_port, n_port, attrs, invert)`: one `BB`
per bit of `p_port`, with `i_T=t`, `i_I=o[bit]`, `o_O=i[bit]`,
`io_B=p_port[bit]`. -/
def get_diff_input_output (p : Pin) (portW : Nat) (invert : Bool) :
    Except String (List Instance) := do
  let () ← checkFeature p
  let r ← _get_xdr_buffer p (invertArg invert) (invertArg invert)
  match r.i, r.o, r.t with
  | some iv, some ov, some tv =>
    .ok (r.insts ++ (List.range portW).map fun bit =>
      { kind := "BB", params := [],
        ports := [("i_T", .whole tv), ("i_I", .bit ov bit),
                  ("o_O", .bit iv bit), ("io_B", .bit (.portV .pos) bit)] })
  | _, _, _ => .error "TypeError: 'NoneType' object is not subscriptable"

/-! Analysis helpers: occurrence checks on the emitted netlist, and
extractors for the results of `_get_xdr_buffer`. These are observations on
the embedded code, not part of the source. -/

/-- Does the value `t` occur as a subterm of `v`? -/
def valOccurs (t : Val) : Val → Bool
  | .xored base inv => (Val.xored base inv == t) || valOccurs t base
  | .notV v => (Val.notV v == t) || valOccurs t v
  | v => v == t

/-- Does the value `t` occur inside a bound port expression? -/
def exprOccurs (t : Val) : Expr → Bool
  | .bit v _ => valOccurs t v
  | .whole v => valOccurs t v
  | .constE _ => false

/-- Does the value `t` occur in any port binding of the instance? -/
def instOccurs (t : Val) (inst : Instance) : Bool :=
  inst.ports.any fun pe => exprOccurs t pe.2

/-- No instance of the module binds any bit of the negative net. -/
def negFreeB (m : List Instance) : Bool :=
  m.all fun inst => !(instOccurs (.portV .neg) inst)

/-- Does the instance touch the `_xdr_t` tristate-enable signal? -/
def mentionsT (inst : Instance) : Bool :=
  instOccurs (.xdrSig "t") inst

/-- Some `LUT4` output (`o_Z`) in the module feeds the data input (`i_D`) of
some instance of kind `capKind`. -/
def lutFeedsD (m : List Instance) (capKind : String) : Bool :=
  m.any fun lut => lut.kind == "LUT4" && (lut.ports.any fun pz =>
    pz.1 == "o_Z" && (m.any fun cap => cap.kind == capKind &&
      (cap.ports.any fun pd => pd.1 == "i_D" && pd.2 == pz.2)))

/-- The register output (`o_Q`) of some instance of kind `capKind` feeds the
input (`i_A`) of some `LUT4` in the module. -/
def capQFeedsLutA (m : List Instance) (capKind : String) : Bool :=
  m.any fun cap => cap.kind == capKind && (cap.ports.any fun pq =>
    pq.1 == "o_Q" && (m.any fun lut => lut.kind == "LUT4" &&
      (lut.ports.any fun pa => pa.1 == "i_A" && pa.2 == pq.2)))

/-- Did `_get_xdr_buffer` return normally? -/
def xdrOk (p : Pin) (iInv oInv : Option Bool) : Bool :=
  match _get_xdr_buffer p iInv oInv with
  | .ok _ => true
  | .error _ => false

/-- The instances appended by a successful `_get_xdr_buffer` call. -/
def xdrInsts (p : Pin) (iInv oInv : Option Bool) : List Instance :=
  match _get_xdr_buffer p iInv oInv with
  | .ok r => r.insts
  | .error _ => []

/-- The normalized input signal returned by `_get_xdr_buffer`. -/
def xdrI (p : Pin) (iInv oInv : Option Bool) : Option Val :=
  match _get_xdr_buffer p iInv oInv with
  | .ok r => r.i
  | .error _ => none

/-- The normalized output signal returned by `_get_xdr_buffer`. -/
def xdrO (p : Pin) (iInv oInv : Option Bool) : Option Val :=
  match _get_xdr_buffer p iInv oInv with
  | .ok r => r.o
  | .error _ => none

/-- The tristate-enable signal returned by `_get_xdr_buffer`. -/
def xdrT (p : Pin) (iInv oInv : Option Bool) : Option Val :=
  match _get_xdr_buffer p iInv oInv with
  | .ok r => r.t
  | .error _ => none

/-! Device/package catalogs, IO-type tables and the negative-net skip rule. -/

/-- Table `_nextpnr_device_options`, as an association list in source order. -/
def _nextpnr_device_options : List (String × String) :=
  [("LFE5U-12F", "--25k"), ("LFE5U-25F", "--25k"), ("LFE5U-45F", "--45k"),
   ("LFE5U-85F", "--85k"), ("LFE5UM-12F", "--um-25k"), ("LFE5UM-25F", "--um-25k"),
   ("LFE5UM-45F", "--um-45k"), ("LFE5UM-85F", "--um-85k"),
   ("LFE5UM5G-12F", "--um5g-25k"), ("LFE5UM5G-25F", "--um5g-25k"),
   ("LFE5UM5G-45F", "--um5g-45k"), ("LFE5UM5G-85F", "--um5g-85k")]

/-- Table `_nextpnr_package_options`, as an association list in source order. -/
def _nextpnr_package_options : List (String × String) :=
  [("BG256", "caBGA256"), ("MG285", "csfBGA285"), ("BG381", "caBGA381"),
   ("BG554", "caBGA554"), ("BG756", "caBGA756")]

/-- Table `_single_ended_io_types`. -/
def _single_ended_io_types : List String :=
  ["HSUL12", "LVCMOS12", "LVCMOS15", "LVCMOS18", "LVCMOS25", "LVCMOS33", "LVTTL33",
   "SSTL135_I", "SSTL135_II", "SSTL15_I", "SSTL15_II", "SSTL18_I", "SSTL18_II"]

/-- Table `_differential_io_types`. -/
def _differential_io_types : List String :=
  ["BLVDS25", "BLVDS25E", "HSUL12D", "LVCMOS18D", "LVCMOS25D", "LVCMOS33D",
   "LVDS", "LVDS25E", "LVPECL33", "LVPECL33E", "LVTTL33D", "MLVDS", "MLVDS25E",
   "SLVS", "SSTL135D_II", "SSTL15D_II", "SSTL18D_II", "SUBLVDS"]

/-- Model of `should_skip_port_component(self, port, attrs, component)`: skip iff
`attrs.get("IO_TYPE", "LVCMOS25")` is a differential IO type and the
component is `"n"`. `attrs` is modelled as an association list. -/
def should_skip_port_component (attrs : List (String × String))
    (component : String) : Bool :=
  if _differential_io_types.contains
      (((attrs.lookup "IO_TYPE").getD "LVCMOS25")) && component == "n"
  then true else false

/-! Toolchain command templates and the Yosys script template.

The Jinja rendering collaborator is out of scope; what is modelled is the
text each template produces: a command is the list of its whitespace-split
fragments (so `{{get_override(...)|join(" ")}}` splices the override list,
and an omitted override splices nothing), and a dict lookup
`platform._nextpnr_device_options[...]` raises `KeyError` on a missing key. -/

/-- Jinja `{{get_override(name)|default(text)}}`: the override when supplied,
otherwise the literal default text. -/
def overrideDefault (ov : Option String) (dflt : String) : String :=
  ov.getD dflt

/-- The body of the `{{name}}.ys` file template, line by line: `read_verilog`
lines for `.v`/`.sv` extra files, `read_ilang`, the `script_after_read`
insertion point (default `"# (script_after_read placeholder)"`), `synth_ecp5`,
the `script_after_synth` insertion point (default
`"# (script_after_synth placeholder)"`), and `write_json`. -/
def ysScript (name : String) (extraFiles : List String)
    (readOpts synthOpts : List String)
    (afterRead afterSynth : Option String) : List String :=
  (extraFiles.filterMap fun file =>
    if file.endsWith ".v" then
      some ("read_verilog " ++ " ".intercalate (readOpts ++ [file]))
    else if file.endsWith ".sv" then
      some ("read_verilog -sv " ++ " ".intercalate (readOpts ++ [file]))
    else none) ++
  ["read_ilang " ++ name ++ ".il",
   overrideDefault afterRead "# (script_after_read placeholder)",
   "synth_ecp5 " ++ " ".intercalate (synthOpts ++ ["-top", name]),
   overrideDefault afterSynth "# (script_after_synth placeholder)",
   "write_json " ++ name ++ ".json"]

/-- Caller overrides reaching the command templates: `verbose`, and the
`yosys_opts` / `nextpnr_opts` extra-flag lists (an omitted list override
renders as the empty insertion). The class docstring also documents an
`ecppack_opts` override, but the `ecppack` command template contains no
insertion point for it, so it does not reach any command. -/
structure Overrides where
  verbose : Bool
  yosys_opts : Option (List String)
  nextpnr_opts : Option (List String)
deriving DecidableEq, Repr

/-- The Jinja `|upper` filter (Python `str.upper()`): uppercase each
character. -/
def upperFilter (s : String) : String :=
  String.mk (s.data.map Char.toUpper)

/-- Jinja `{{quiet(flag)}}`: the flag unless verbose is set. -/
def quietFlag (verbose : Bool) (flag : String) : List String :=
  if verbose then [] else [flag]

/-- Jinja `{{verbose(flag)}}`: the flag only when verbose is set. -/
def verboseFlag (verbose : Bool) (flag : String) : List String :=
  if verbose then [flag] else []

/-- First command template: the `yosys` invocation. -/
def yosysCommand (o : Overrides) (name : String) : List String :=
  ["yosys"] ++ quietFlag o.verbose "-q" ++ (o.yosys_opts).getD [] ++
  ["-l", name ++ ".rpt", name ++ ".ys"]

/-- Second command template: the `nextpnr-ecp5` invocation;
`platform._nextpnr_device_options[platform.device]` and
`platform._nextpnr_package_options[platform.package]` raise `KeyError` on
an unknown key, and the package value passes through the `|upper` filter. -/
def nextpnrCommand (o : Overrides) (device package speed name : String) :
    Except String (List String) := do
  let deviceFlag ← match _nextpnr_device_options.lookup device with
    | some f => .ok f
    | none => .error ("KeyError: " ++ device)
  let packageOpt ← match _nextpnr_package_options.lookup package with
    | some f => .ok f
    | none => .error ("KeyError: " ++ package)
  .ok (["nextpnr-ecp5"] ++ quietFlag o.verbose "--quiet" ++
    (o.nextpnr_opts).getD [] ++
    ["--log", name ++ ".tim", deviceFlag, "--package", upperFilter packageOpt,
     "--speed", speed, "--json", name ++ ".json", "--lpf", name ++ ".lpf",
     "--textcfg", name ++ ".config"])

/-- Third command template: the `ecppack` invocation (fixed arguments plus
the optional verbose flag; no extra-flag insertion point appears in this
template). -/
def ecppackCommand (o : Overrides) (name : String) : List String :=
  ["ecppack"] ++ verboseFlag o.verbose "--verbose" ++
  ["--input", name ++ ".config", "--bit", name ++ ".bit", "--svf", name ++ ".svf"]

/-- Rendering of `command_templates`, in list order; a failing lookup in any
template means no command list is produced. -/
def command_templates (o : Overrides) (device package speed name : String) :
    Except String (List (List String)) := do
  let c2 ← nextpnrCommand o device package speed name
  .ok [yosysCommand o name, c2, ecppackCommand o name]

/-- The tool a rendered command invokes (its first fragment). -/
def commandTool (c : List String) : String := c.headD ""

/-- Overrides with everything omitted. -/
def noOverrides : Overrides :=
  { verbose := false, yosys_opts := none, nextpnr_opts := none }

/-- The single `OFS1P3DX` that `_get_xdr_buffer` emits for the 1-bit
tristate-enable signal under `xdr` 1 or 2. -/
def tregInst : Instance :=
  { kind := "OFS1P3DX", params := [],
    ports := [("i_SCLK", .whole .oClk), ("i_SP", .constE 1), ("i_CD", .constE 0),
              ("i_D", .bit (.notV (.pinField "oe")) 0), ("o_Q", .bit (.xdrSig "t") 0)] }

/-- The `IDDRX1F` instance `_get_xdr_buffer` emits for bit `b` of the input
data path under `xdr = 2`. -/
def iddrInst (iInv : Option Bool) (b : Nat) : Instance :=
  { kind := "IDDRX1F", params := [],
    ports := [("i_SCLK", .whole .iClk), ("i_RST", .constE 0),
              ("i_D", .bit (.xdrSig "i") b),
              ("o_Q0", .bit (xorVal (.pinField "i0") iInv) b),
              ("o_Q1", .bit (xorVal (.pinField "i1") iInv) b)] }

/-- The `ODDRX1F` instance `_get_xdr_buffer` emits for bit `b` of the output
data path under `xdr = 2`. -/
def oddrInst (oInv : Option Bool) (b : Nat) : Instance :=
  { kind := "ODDRX1F", params := [],
    ports := [("i_SCLK", .whole .oClk), ("i_RST", .constE 0),
              ("i_D0", .bit (xorVal (.pinField "o0") oInv) b),
              ("i_D1", .bit (xorVal (.pinField "o1") oInv) b),
              ("o_Q", .bit (.xdrSig "o") b)] }

end ECP5

namespace ECP5

/-! Helper lemmas shared by the claim theorems. -/

lemma negFreeB_nil : negFreeB [] = true := rfl

lemma negFreeB_append {a b : List Instance}
    (ha : negFreeB a = true) (hb : negFreeB b = true) :
    negFreeB (a ++ b) = true := by
  simp only [negFreeB, List.all_append, Bool.and_eq_true] at *
  exact ⟨ha, hb⟩

lemma negFreeB_map_range {n : Nat} {f : Nat → Instance}
    (h : ∀ b, instOccurs (.portV .neg) (f b) = false) :
    negFreeB ((List.range n).map f) = true := by
  simp only [negFreeB, List.all_eq_true]
  intro inst hmem
  simp only [List.mem_map, List.mem_range] at hmem
  obtain ⟨b, _, rfl⟩ := hmem
  simp [h b]

lemma valOccurs_neg_xorVal {z : Val} (inv : Option Bool)
    (hz : valOccurs (.portV .neg) z = false) :
    valOccurs (.portV .neg) (xorVal z inv) = false := by
  cases inv <;> simp [xorVal, valOccurs, hz]

lemma negFree_ireg (p : Pin) (clk d q : Val)
    (hc : valOccurs (.portV .neg) clk = false)
    (hd : valOccurs (.portV .neg) d = false)
    (hq : valOccurs (.portV .neg) q = false) :
    negFreeB (get_ireg p clk d q) = true :=
  negFreeB_map_range (by intro b; simp [get_ireg, instOccurs, exprOccurs, hc, hd, hq])

lemma negFree_oreg (p : Pin) (clk d q : Val)
    (hc : valOccurs (.portV .neg) clk = false)
    (hd : valOccurs (.portV .neg) d = false)
    (hq : valOccurs (.portV .neg) q = false) :
    negFreeB (get_oreg p clk d q) = true :=
  negFreeB_map_range (by intro b; simp [get_oreg, instOccurs, exprOccurs, hc, hd, hq])

lemma negFree_iddr (p : Pin) (clk d q0 q1 : Val)
    (hc : valOccurs (.portV .neg) clk = false)
    (hd : valOccurs (.portV .neg) d = false)
    (hq0 : valOccurs (.portV .neg) q0 = false)
    (hq1 : valOccurs (.portV .neg) q1 = false) :
    negFreeB (get_iddr p clk d q0 q1) = true :=
  negFreeB_map_range (by intro b; simp [get_iddr, instOccurs, exprOccurs, hc, hd, hq0, hq1])

lemma negFree_oddr (p : Pin) (clk d0 d1 q : Val)
    (hc : valOccurs (.portV .neg) clk = false)
    (hd0 : valOccurs (.portV .neg) d0 = false)
    (hd1 : valOccurs (.portV .neg) d1 = false)
    (hq : valOccurs (.portV .neg) q = false) :
    negFreeB (get_oddr p clk d0 d1 q) = true :=
  negFreeB_map_range (by intro b; simp [get_oddr, instOccurs, exprOccurs, hc, hd0, hd1, hq])

lemma negFree_ixor (p : Pin) (z : Val) (inv : Option Bool)
    (hz : valOccurs (.portV .neg) z = false) :
    negFreeB (get_ixor p z inv) = true := by
  cases inv with
  | none => rfl
  | some b =>
    exact negFreeB_map_range
      (by intro k; simp [get_ixor, instOccurs, exprOccurs, valOccurs, hz])

lemma negFree_oxor (p : Pin) (z : Val) (inv : Option Bool)
    (hz : valOccurs (.portV .neg) z = false) :
    negFreeB (get_oxor p z inv) = true := by
  cases inv with
  | none => rfl
  | some b =>
    exact negFreeB_map_range
      (by intro k; simp [get_oxor, instOccurs, exprOccurs, valOccurs, hz])

lemma xdr_insts_negFree (p : Pin) (iInv oInv : Option Bool) :
    negFreeB (xdrInsts p iInv oInv) = true ∧
    (∀ v, xdrI p iInv oInv = some v → valOccurs (.portV .neg) v = false) ∧
    (∀ v, xdrO p iInv oInv = some v → valOccurs (.portV .neg) v = false) ∧
    (∀ v, xdrT p iInv oInv = some v → valOccurs (.portV .neg) v = false) := by
  obtain ⟨nm, dir, w, x⟩ := p
  by_cases h0 : x = 0
  case pos =>
    subst h0
    cases dir <;> refine ⟨?_, ?_, ?_, ?_⟩ <;>
        simp only [xdrInsts, xdrI, xdrO, xdrT, _get_xdr_buffer, hasI, hasO, hasT] <;>
        norm_num <;>
      first
        | ((repeat' first
              | apply negFreeB_append
              | apply negFree_ixor
              | apply negFree_oxor
              | apply negFree_ireg
              | apply negFree_oreg
              | apply negFree_iddr
              | apply negFree_oddr
              | exact negFreeB_nil) <;>
           first | rfl | exact valOccurs_neg_xorVal _ rfl)
        | (intro v hv
           first
             | exact Option.noConfusion hv
             | (injection hv with hv
                subst hv
                first | exact valOccurs_neg_xorVal _ rfl | rfl))
  case neg =>
    by_cases h1 : x = 1
    case pos =>
      subst h1
      cases dir <;> refine ⟨?_, ?_, ?_, ?_⟩ <;>
          simp only [xdrInsts, xdrI, xdrO, xdrT, _get_xdr_buffer, hasI, hasO, hasT] <;>
          norm_num <;>
        first
          | ((repeat' first
                | apply negFreeB_append
                | apply negFree_ixor
                | apply negFree_oxor
                | apply negFree_ireg
                | apply negFree_oreg
                | apply negFree_iddr
                | apply negFree_oddr
                | exact negFreeB_nil) <;>
             first | rfl | exact valOccurs_neg_xorVal _ rfl)
          | (intro v hv
             first
               | exact Option.noConfusion hv
               | (injection hv with hv
                  subst hv
                  first | exact valOccurs_neg_xorVal _ rfl | rfl))
    case neg =>
      by_cases h2 : x = 2
      case pos =>
        subst h2
        cases dir <;> refine ⟨?_, ?_, ?_, ?_⟩ <;>
            simp only [xdrInsts, xdrI, xdrO, xdrT, _get_xdr_buffer, hasI, hasO, hasT] <;>
            norm_num <;>
          first
            | ((repeat' first
                  | apply negFreeB_append
                  | apply negFree_ixor
                  | apply negFree_oxor
                  | apply negFree_ireg
                  | apply negFree_oreg
                  | apply negFree_iddr
                  | apply negFree_oddr
                  | exact negFreeB_nil) <;>
               first | rfl | exact valOccurs_neg_xorVal _ rfl)
            | (intro v hv
               first
                 | exact Option.noConfusion hv
                 | (injection hv with hv
                    subst hv
                    first | exact valOccurs_neg_xorVal _ rfl | rfl))
      case neg =>
        refine ⟨?_, ?_, ?_, ?_⟩ <;>
          simp [xdrInsts, xdrI, xdrO, xdrT, _get_xdr_buffer, h0, h1, h2, negFreeB]

lemma mem_map_range {f : Nat → Instance} {n b : Nat} (hb : b < n) :
    f b ∈ (List.range n).map f :=
  List.mem_map_of_mem f (List.mem_range.mpr hb)

lemma capQFeedsLutA_intro {m : List Instance} {k : String} {cap lut : Instance}
    {e : Expr} (hcap : cap ∈ m) (hlut : lut ∈ m) (hck : cap.kind = k)
    (hlk : lut.kind = "LUT4")
    (hq : ("o_Q", e) ∈ cap.ports) (ha : ("i_A", e) ∈ lut.ports) :
    capQFeedsLutA m k = true := by
  simp only [capQFeedsLutA, List.any_eq_true]
  refine ⟨cap, hcap, ?_⟩
  simp only [Bool.and_eq_true, beq_iff_eq, hck, true_and, List.any_eq_true]
  refine ⟨("o_Q", e), hq, ?_⟩
  simp only [Bool.and_eq_true, beq_iff_eq, true_and, List.any_eq_true]
  refine ⟨lut, hlut, ?_⟩
  simp only [Bool.and_eq_true, beq_iff_eq, hlk, true_and, List.any_eq_true]
  exact ⟨("i_A", e), ha, by simp⟩

lemma lutFeedsD_intro {m : List Instance} {k : String} {cap lut : Instance}
    {e : Expr} (hcap : cap ∈ m) (hlut : lut ∈ m) (hck : cap.kind = k)
    (hlk : lut.kind = "LUT4")
    (hz : ("o_Z", e) ∈ lut.ports) (hd : ("i_D", e) ∈ cap.ports) :
    lutFeedsD m k = true := by
  simp only [lutFeedsD, List.any_eq_true]
  refine ⟨lut, hlut, ?_⟩
  simp only [Bool.and_eq_true, beq_iff_eq, hlk, true_and, List.any_eq_true]
  refine ⟨("o_Z", e), hz, ?_⟩
  simp only [Bool.and_eq_true, beq_iff_eq, true_and, List.any_eq_true]
  refine ⟨cap, hcap, ?_⟩
  simp only [Bool.and_eq_true, beq_iff_eq, hck, true_and, List.any_eq_true]
  exact ⟨("i_D", e), hd, by simp⟩

lemma filter_map_range_nil {f : Nat → Instance} {n : Nat} {pred : Instance → Bool}
    (h : ∀ b, pred (f b) = false) :
    ((List.range n).map f).filter pred = [] := by
  refine List.filter_eq_nil_iff.mpr ?_
  intro a ha
  obtain ⟨b, _, rfl⟩ := List.mem_map.mp ha
  simp [h b]

lemma valOccurs_xdrT_xorVal {z : Val} (inv : Option Bool)
    (hz : valOccurs (.xdrSig "t") z = false) :
    valOccurs (.xdrSig "t") (xorVal z inv) = false := by
  cases inv <;> simp [xorVal, valOccurs, hz]

lemma filter_mentionsT_ixor (p : Pin) (z : Val) (inv : Option Bool)
    (hz : valOccurs (.xdrSig "t") z = false) :
    (get_ixor p z inv).filter mentionsT = [] := by
  cases inv with
  | none => rfl
  | some b =>
    apply filter_map_range_nil
    intro k
    simp [get_ixor, mentionsT, instOccurs, exprOccurs, valOccurs, hz]

lemma filter_mentionsT_oxor (p : Pin) (z : Val) (inv : Option Bool)
    (hz : valOccurs (.xdrSig "t") z = false) :
    (get_oxor p z inv).filter mentionsT = [] := by
  cases inv with
  | none => rfl
  | some b =>
    apply filter_map_range_nil
    intro k
    simp [get_oxor, mentionsT, instOccurs, exprOccurs, valOccurs, hz]

lemma filter_mentionsT_iddr (p : Pin) (clk d q0 q1 : Val)
    (hc : valOccurs (.xdrSig "t") clk = false)
    (hd : valOccurs (.xdrSig "t") d = false)
    (hq0 : valOccurs (.xdrSig "t") q0 = false)
    (hq1 : valOccurs (.xdrSig "t") q1 = false) :
    (get_iddr p clk d q0 q1).filter mentionsT = [] :=
  filter_map_range_nil
    (by intro b; simp [get_iddr, mentionsT, instOccurs, exprOccurs, hc, hd, hq0, hq1])

lemma filter_mentionsT_oddr (p : Pin) (clk d0 d1 q : Val)
    (hc : valOccurs (.xdrSig "t") clk = false)
    (hd0 : valOccurs (.xdrSig "t") d0 = false)
    (hd1 : valOccurs (.xdrSig "t") d1 = false)
    (hq : valOccurs (.xdrSig "t") q = false) :
    (get_oddr p clk d0 d1 q).filter mentionsT = [] :=
  filter_map_range_nil
    (by intro b; simp [get_oddr, mentionsT, instOccurs, exprOccurs, hc, hd0, hd1, hq])

lemma treg_eq (p : Pin) :
    get_oreg p .oClk (.notV (.pinField "oe")) (.xdrSig "t") = [tregInst] := rfl

end ECP5

namespace ECP5

/-- C1: the claim states that for every valid single-ended input pin and a
port of width W, `get_input` returns a module with exactly W `IB` buffers,
one per port bit, binding the port bit as input and the normalized input bit
as output. The code instead unpacks the buffer result as `t, o, t = ...`,
never binding the name `i`, so the loop body `o_O=i[bit]` raises `NameError`
on its first iteration: for every input pin with a valid xdr level and any
nonempty port, `get_input` raises instead of returning a module. -/
theorem C1_get_input_raises (p : Pin) (portW : Nat) (invert : Bool)
    (hdir : p.dir = .i) (hx : p.xdr = 0 ∨ p.xdr = 1 ∨ p.xdr = 2) (hw : 0 < portW) :
    get_input p portW invert = .error "NameError: name 'i' is not defined" := by
  have hw' : portW ≠ 0 := Nat.pos_iff_ne_zero.mp hw
  rcases hx with hx | hx | hx <;>
    simp [get_input, checkFeature, _get_xdr_buffer, hdir, hx, hw', hasT, hasI, hasO,
      Bind.bind, Except.bind]

/-- Witness for C1 at an input pin of width 1 with xdr 0 and a 1-bit port. -/
theorem C1_witness :
    get_input ⟨"x", .i, 1, 0⟩ 1 false = .error "NameError: name 'i' is not defined" :=
  C1_get_input_raises ⟨"x", .i, 1, 0⟩ 1 false rfl (Or.inl rfl) (by decide)

/-- C2: for every differential pin shape (`get_diff_input`,
`get_diff_output`, `get_diff_tristate`, `get_diff_input_output`) and every
pin, whenever the emitter returns a module, no instantiated primitive binds
any bit of the negative net; every boundary buffer touches only the positive
net. -/
theorem C2_negative_net_never_bound (p : Pin) (portW : Nat) (invert : Bool)
    (m : List Instance) :
    (get_diff_input p portW invert = .ok m → negFreeB m = true) ∧
    (get_diff_output p portW invert = .ok m → negFreeB m = true) ∧
    (get_diff_tristate p portW invert = .ok m → negFreeB m = true) ∧
    (get_diff_input_output p portW invert = .ok m → negFreeB m = true) := by
  refine ⟨?_, ?_, ?_, ?_⟩ <;> intro h
  · cases hcf : checkFeature p with
    | error e => simp [get_diff_input, hcf, Bind.bind, Except.bind] at h
    | ok u =>
      cases hbuf : _get_xdr_buffer p (invertArg invert) none with
      | error e => simp [get_diff_input, hcf, hbuf, Bind.bind, Except.bind] at h
      | ok r =>
        cases hri : r.i with
        | none => simp [get_diff_input, hcf, hbuf, hri, Bind.bind, Except.bind] at h
        | some iv =>
          simp only [get_diff_input, hcf, hbuf, hri, Bind.bind, Except.bind,
            Except.ok.injEq] at h
          subst h
          have hx := xdr_insts_negFree p (invertArg invert) none
          apply negFreeB_append
          · have hr : xdrInsts p (invertArg invert) none = r.insts := by
              simp [xdrInsts, hbuf]
            rw [← hr]
            exact hx.1
          · apply negFreeB_map_range
            intro b
            have hiv : valOccurs (.portV .neg) iv = false := by
              apply hx.2.1 iv
              simp [xdrI, hbuf, hri]
            simp [instOccurs, exprOccurs, valOccurs, hiv]
  · cases hcf : checkFeature p with
    | error e => simp [get_diff_output, hcf, Bind.bind, Except.bind] at h
    | ok u =>
      cases hbuf : _get_xdr_buffer p none (invertArg invert) with
      | error e => simp [get_diff_output, hcf, hbuf, Bind.bind, Except.bind] at h
      | ok r =>
        cases hro : r.o with
        | none => simp [get_diff_output, hcf, hbuf, hro, Bind.bind, Except.bind] at h
        | some ov =>
          simp only [get_diff_output, hcf, hbuf, hro, Bind.bind, Except.bind,
            Except.ok.injEq] at h
          subst h
          have hx := xdr_insts_negFree p none (invertArg invert)
          apply negFreeB_append
          · have hr : xdrInsts p none (invertArg invert) = r.insts := by
              simp [xdrInsts, hbuf]
            rw [← hr]
            exact hx.1
          · apply negFreeB_map_range
            intro b
            have hov : valOccurs (.portV .neg) ov = false := by
              apply hx.2.2.1 ov
              simp [xdrO, hbuf, hro]
            simp [instOccurs, exprOccurs, valOccurs, hov]
  · cases hcf : checkFeature p with
    | error e => simp [get_diff_tristate, hcf, Bind.bind, Except.bind] at h
    | ok u =>
      cases hbuf : _get_xdr_buffer p none (invertArg invert) with
      | error e => simp [get_diff_tristate, hcf, hbuf, Bind.bind, Except.bind] at h
      | ok r =>
        cases hro : r.o with
        | none => simp [get_diff_tristate, hcf, hbuf, hro, Bind.bind, Except.bind] at h
        | some ov =>
          cases hrt : r.t with
          | none =>
            simp [get_diff_tristate, hcf, hbuf, hro, hrt, Bind.bind, Except.bind] at h
          | some tv =>
            simp only [get_diff_tristate, hcf, hbuf, hro, hrt, Bind.bind, Except.bind,
              Except.ok.injEq] at h
            subst h
            have hx := xdr_insts_negFree p none (invertArg invert)
            apply negFreeB_append
            · have hr : xdrInsts p none (invertArg invert) = r.insts := by
                simp [xdrInsts, hbuf]
              rw [← hr]
              exact hx.1
            · apply negFreeB_map_range
              intro b
              have hov : valOccurs (.portV .neg) ov = false := by
                apply hx.2.2.1 ov
                simp [xdrO, hbuf, hro]
              have htv : valOccurs (.portV .neg) tv = false := by
                apply hx.2.2.2 tv
                simp [xdrT, hbuf, hrt]
              simp [instOccurs, exprOccurs, valOccurs, hov, htv]
  · cases hcf : checkFeature p with
    | error e => simp [get_diff_input_output, hcf, Bind.bind, Except.bind] at h
    | ok u =>
      cases hbuf : _get_xdr_buffer p (invertArg invert) (invertArg invert) with
      | error e =>
        simp [get_diff_input_output, hcf, hbuf, Bind.bind, Except.bind] at h
      | ok r =>
        cases hri : r.i with
        | none =>
          simp [get_diff_input_output, hcf, hbuf, hri, Bind.bind, Except.bind] at h
        | some iv =>
          cases hro : r.o with
          | none =>
            simp [get_diff_input_output, hcf, hbuf, hri, hro, Bind.bind,
              Except.bind] at h
          | some ov =>
            cases hrt : r.t with
            | none =>
              simp [get_diff_input_output, hcf, hbuf, hri, hro, hrt, Bind.bind,
                Except.bind] at h
            | some tv =>
              simp only [get_diff_input_output, hcf, hbuf, hri, hro, hrt, Bind.bind,
                Except.bind, Except.ok.injEq] at h
              subst h
              have hx := xdr_insts_negFree p (invertArg invert) (invertArg invert)
              apply negFreeB_append
              · have hr : xdrInsts p (invertArg invert) (invertArg invert) = r.insts := by
                  simp [xdrInsts, hbuf]
                rw [← hr]
                exact hx.1
              · apply negFreeB_map_range
                intro b
                have hiv : valOccurs (.portV .neg) iv = false := by
                  apply hx.2.1 iv
                  simp [xdrI, hbuf, hri]
                have hov : valOccurs (.portV .neg) ov = false := by
                  apply hx.2.2.1 ov
                  simp [xdrO, hbuf, hro]
                have htv : valOccurs (.portV .neg) tv = false := by
                  apply hx.2.2.2 tv
                  simp [xdrT, hbuf, hrt]
                simp [instOccurs, exprOccurs, valOccurs, hiv, hov, htv]

/-- Witness for C2: `get_diff_input` on a width-1 input pin with xdr 0
returns a single `IB` bound only to the positive net. -/
theorem C2_witness :
    get_diff_input ⟨"x", .i, 1, 0⟩ 1 false =
      .ok [{ kind := "IB", params := [],
             ports := [("i_I", .bit (.portV .pos) 0),
                       ("o_O", .bit (.pinField "i") 0)] }] ∧
    negFreeB [{ kind := "IB", params := [],
                ports := [("i_I", .bit (.portV .pos) 0),
                          ("o_O", .bit (.pinField "i") 0)] }] = true :=
  ⟨rfl, (C2_negative_net_never_bound ⟨"x", .i, 1, 0⟩ 1 false _).1 rfl⟩

end ECP5

namespace ECP5

/-- C3 counterexample: at the concrete io pin of width 1 with `xdr = 1` and
inversion requested on both legs, a `LUT4` output feeds the data input of the
output-capture primitive (`OFS1P3DX`), but no `LUT4` output feeds the data
input of the input-capture primitive (`IFS1P3DX`): the claim that the
inverter precedes capture on *both* legs is false on the input leg. -/
theorem C3_cex :
    lutFeedsD (xdrInsts ⟨"pin", .io, 1, 1⟩ (some true) (some true)) "OFS1P3DX" = true ∧
    lutFeedsD (xdrInsts ⟨"pin", .io, 1, 1⟩ (some true) (some true)) "IFS1P3DX" = false := by
  decide

/-- C3 as amended: for every pin with `xdr = 1`, positive width and
inversion requested, the inverter precedes the capture register only on the
output leg (the `LUT4` output feeds the `OFS1P3DX` data input); on the input
leg the capture register precedes the inverter (the `IFS1P3DX` register
output feeds the `LUT4` input, whose output drives `pin.i`). -/
theorem C3_amended (p : Pin) (iInv oInv : Option Bool)
    (hx : p.xdr = 1) (hw : 0 < p.width) :
    (hasI p.dir = true →
      capQFeedsLutA (xdrInsts p (some true) oInv) "IFS1P3DX" = true) ∧
    (hasO p.dir = true →
      lutFeedsD (xdrInsts p iInv (some true)) "OFS1P3DX" = true) := by
  obtain ⟨nm, dir, w, x⟩ := p
  have hx' : x = 1 := hx
  have hw' : 0 < w := hw
  subst hx'
  cases dir
  case i =>
    refine ⟨fun _ => ?_, fun habs => by simp [hasO] at habs⟩
    simp only [xdrInsts, _get_xdr_buffer, hasI, hasO, hasT]
    norm_num
    exact capQFeedsLutA_intro (e := .bit (.xored (.pinField "i") true) 0)
      (List.mem_append.mpr (Or.inr (mem_map_range hw')))
      (List.mem_append.mpr (Or.inl (mem_map_range hw')))
      rfl rfl (by simp [xorVal]) (by simp [xorVal])
  case o =>
    refine ⟨fun habs => by simp [hasI] at habs, fun _ => ?_⟩
    simp only [xdrInsts, _get_xdr_buffer, hasI, hasO, hasT]
    norm_num
    exact lutFeedsD_intro (e := .bit (.xored (.pinField "o") true) 0)
      (List.mem_append.mpr (Or.inr (mem_map_range hw')))
      (List.mem_append.mpr (Or.inl (mem_map_range hw')))
      rfl rfl (by simp [xorVal]) (by simp [xorVal])
  case oe =>
    refine ⟨fun habs => by simp [hasI] at habs, fun _ => ?_⟩
    simp only [xdrInsts, _get_xdr_buffer, hasI, hasO, hasT]
    norm_num
    exact lutFeedsD_intro (e := .bit (.xored (.pinField "o") true) 0)
      (List.mem_append.mpr (Or.inr (List.mem_append.mpr (Or.inl (mem_map_range hw')))))
      (List.mem_append.mpr (Or.inl (mem_map_range hw')))
      rfl rfl (by simp [xorVal]) (by simp [xorVal])
  case io =>
    constructor
    · intro _
      simp only [xdrInsts, _get_xdr_buffer, hasI, hasO, hasT]
      norm_num
      exact capQFeedsLutA_intro (e := .bit (.xored (.pinField "i") true) 0)
        (List.mem_append.mpr (Or.inr (List.mem_append.mpr (Or.inr
          (List.mem_append.mpr (Or.inl (mem_map_range hw')))))))
        (List.mem_append.mpr (Or.inl (mem_map_range hw')))
        rfl rfl (by simp [xorVal]) (by simp [xorVal])
    · intro _
      simp only [xdrInsts, _get_xdr_buffer, hasI, hasO, hasT]
      norm_num
      exact lutFeedsD_intro (e := .bit (.xored (.pinField "o") true) 0)
        (List.mem_append.mpr (Or.inr (List.mem_append.mpr (Or.inr (List.mem_append.mpr
          (Or.inr (List.mem_append.mpr (Or.inl (mem_map_range hw')))))))))
        (List.mem_append.mpr (Or.inr (List.mem_append.mpr (Or.inl (mem_map_range hw')))))
        rfl rfl (by simp [xorVal]) (by simp [xorVal])

/-- Witness for C3 at a concrete io pin of width 1 with both inversions. -/
theorem C3_witness :
    capQFeedsLutA (xdrInsts ⟨"w3", .io, 1, 1⟩ (some true) (some true)) "IFS1P3DX" = true ∧
    lutFeedsD (xdrInsts ⟨"w3", .io, 1, 1⟩ (some true) (some true)) "OFS1P3DX" = true :=
  ⟨(C3_amended ⟨"w3", .io, 1, 1⟩ (some true) (some true) rfl (by decide)).1 rfl,
   (C3_amended ⟨"w3", .io, 1, 1⟩ (some true) (some true) rfl (by decide)).2 rfl⟩

/-- C4 counterexample: at the concrete tristate pin (dir "oe", width 1,
`xdr = 0`) the synthesizer does not produce any tristate-enable signal at
all — the line `t = ~pin_oe` references an unbound name and raises
`NameError`, so no LUT-based complement (nor any result) exists. -/
theorem C4_cex :
    _get_xdr_buffer ⟨"pin", .oe, 1, 0⟩ none none
      = .error "NameError: name 'pin_oe' is not defined" := rfl

/-- C4 as amended: for every tristate-capable pin (`dir` "oe" or "io") with
`xdr = 0`, `_get_xdr_buffer` raises `NameError`: the code writes
`t = ~pin_oe`, a generic bitwise complement of the undefined name `pin_oe`
(the intended `pin.oe`), not a per-bit LUT inverter instantiation, and the
unbound name aborts the call before any tristate enable is produced. -/
theorem C4_amended (p : Pin) (iInv oInv : Option Bool)
    (hx : p.xdr = 0) (ht : hasT p.dir = true) :
    _get_xdr_buffer p iInv oInv = .error "NameError: name 'pin_oe' is not defined" := by
  simp [_get_xdr_buffer, hx, ht]

/-- Witness for C4 at an io pin of width 2 with both inversions requested. -/
theorem C4_witness :
    _get_xdr_buffer ⟨"pin2", .io, 2, 0⟩ (some true) (some true)
      = .error "NameError: name 'pin_oe' is not defined" :=
  C4_amended ⟨"pin2", .io, 2, 0⟩ (some true) (some true) rfl rfl

/-- C5: for every tristate-capable pin with `xdr = 2`, the buffer call
succeeds, the only instance touching the tristate-enable signal is the
single-rate `OFS1P3DX` clocked by the output clock (never a DDR primitive),
and the data paths instantiate the DDR primitives: an `IDDRX1F` per input
bit when the direction includes input, and an `ODDRX1F` per output bit. -/
theorem C5_ddr_tristate_single_rate (p : Pin) (iInv oInv : Option Bool)
    (hx : p.xdr = 2) (ht : hasT p.dir = true) :
    xdrOk p iInv oInv = true ∧
    (xdrInsts p iInv oInv).filter mentionsT = [tregInst] ∧
    (hasI p.dir = true → ∀ b, b < p.width → iddrInst iInv b ∈ xdrInsts p iInv oInv) ∧
    (∀ b, b < p.width → oddrInst oInv b ∈ xdrInsts p iInv oInv) := by
  obtain ⟨nm, dir, w, x⟩ := p
  have hx' : x = 2 := hx
  subst hx'
  cases dir
  case i => exact absurd ht (by simp [hasT])
  case o => exact absurd ht (by simp [hasT])
  case oe =>
    refine ⟨by simp [xdrOk, _get_xdr_buffer, hasI, hasO, hasT], ?_,
      fun habs => absurd habs (by simp [hasI]), ?_⟩
    · simp only [xdrInsts, _get_xdr_buffer, hasI, hasO, hasT]
      norm_num
      rw [filter_mentionsT_oxor _ (.pinField "o0") oInv rfl,
        filter_mentionsT_oxor _ (.pinField "o1") oInv rfl,
        filter_mentionsT_oddr _ .oClk (xorVal (.pinField "o0") oInv)
          (xorVal (.pinField "o1") oInv) (.xdrSig "o") rfl
          (valOccurs_xdrT_xorVal (z := .pinField "o0") oInv rfl)
          (valOccurs_xdrT_xorVal (z := .pinField "o1") oInv rfl) rfl,
        treg_eq]
      rfl
    · intro b hb
      have hb' : b < w := hb
      simp only [xdrInsts, _get_xdr_buffer, hasI, hasO, hasT]
      norm_num
      exact Or.inr (Or.inr (Or.inl (mem_map_range hb')))
  case io =>
    refine ⟨by simp [xdrOk, _get_xdr_buffer, hasI, hasO, hasT], ?_, ?_, ?_⟩
    · simp only [xdrInsts, _get_xdr_buffer, hasI, hasO, hasT]
      norm_num
      rw [filter_mentionsT_ixor _ (.pinField "i0") iInv rfl,
        filter_mentionsT_ixor _ (.pinField "i1") iInv rfl,
        filter_mentionsT_oxor _ (.pinField "o0") oInv rfl,
        filter_mentionsT_oxor _ (.pinField "o1") oInv rfl,
        filter_mentionsT_iddr _ .iClk (.xdrSig "i") (xorVal (.pinField "i0") iInv)
          (xorVal (.pinField "i1") iInv) rfl rfl
          (valOccurs_xdrT_xorVal (z := .pinField "i0") iInv rfl)
          (valOccurs_xdrT_xorVal (z := .pinField "i1") iInv rfl),
        filter_mentionsT_oddr _ .oClk (xorVal (.pinField "o0") oInv)
          (xorVal (.pinField "o1") oInv) (.xdrSig "o") rfl
          (valOccurs_xdrT_xorVal (z := .pinField "o0") oInv rfl)
          (valOccurs_xdrT_xorVal (z := .pinField "o1") oInv rfl) rfl,
        treg_eq]
      rfl
    · intro _ b hb
      have hb' : b < w := hb
      simp only [xdrInsts, _get_xdr_buffer, hasI, hasO, hasT]
      norm_num
      exact Or.inr (Or.inr (Or.inr (Or.inr (Or.inl (mem_map_range hb')))))
    · intro b hb
      have hb' : b < w := hb
      simp only [xdrInsts, _get_xdr_buffer, hasI, hasO, hasT]
      norm_num
      exact Or.inr (Or.inr (Or.inr (Or.inr (Or.inr (Or.inl (mem_map_range hb'))))))

/-- Witness for C5 at a concrete io pin of width 1 with xdr 2. -/
theorem C5_witness :
    xdrOk ⟨"w5", .io, 1, 2⟩ none none = true ∧
    (xdrInsts ⟨"w5", .io, 1, 2⟩ none none).filter mentionsT = [tregInst] ∧
    oddrInst none 0 ∈ xdrInsts ⟨"w5", .io, 1, 2⟩ none none :=
  ⟨(C5_ddr_tristate_single_rate ⟨"w5", .io, 1, 2⟩ none none rfl rfl).1,
   (C5_ddr_tristate_single_rate ⟨"w5", .io, 1, 2⟩ none none rfl rfl).2.1,
   (C5_ddr_tristate_single_rate ⟨"w5", .io, 1, 2⟩ none none rfl rfl).2.2.2 0 (by decide)⟩

end ECP5

namespace ECP5

/-- C6 counterexample: at the concrete io pin of width 2 with `xdr = 1` the
tristate-enable signal returned by the synthesizer is present but has width
1, not `pin.width = 2`, so the claim that every present normalized signal is
sized to `pin.width` is false. -/
theorem C6_cex :
    xdrT ⟨"pin", .io, 2, 1⟩ none none = some (.xdrSig "t") ∧
    sigWidth ⟨"pin", .io, 2, 1⟩ (.xdrSig "t") = 1 ∧
    (⟨"pin", .io, 2, 1⟩ : Pin).width = 2 := by decide

/-- C6 as amended: whenever `_get_xdr_buffer` returns, the normalized input
is present exactly when the direction includes input, the normalized output
exactly when it includes output, and the tristate enable exactly when the
direction is "oe" or "io"; the input and output signals are sized to
`pin.width`, but the tristate enable is a 1-bit signal, not `pin.width`
wide. -/
theorem C6_amended (p : Pin) (iInv oInv : Option Bool)
    (h : xdrOk p iInv oInv = true) :
    ((xdrI p iInv oInv).isSome = hasI p.dir) ∧
    ((xdrO p iInv oInv).isSome = hasO p.dir) ∧
    ((xdrT p iInv oInv).isSome = hasT p.dir) ∧
    (∀ v, xdrI p iInv oInv = some v → sigWidth p v = p.width) ∧
    (∀ v, xdrO p iInv oInv = some v → sigWidth p v = p.width) ∧
    (∀ v, xdrT p iInv oInv = some v → sigWidth p v = 1) := by
  obtain ⟨nm, dir, w, x⟩ := p
  by_cases h0 : x = 0
  · subst h0
    cases dir <;> cases iInv <;> cases oInv <;>
      simp_all [xdrOk, xdrI, xdrO, xdrT, _get_xdr_buffer, hasI, hasO, hasT, xorVal,
        sigWidth]
  · by_cases h1 : x = 1
    · subst h1
      cases dir <;> cases iInv <;> cases oInv <;>
        simp_all [xdrOk, xdrI, xdrO, xdrT, _get_xdr_buffer, hasI, hasO, hasT, xorVal,
          sigWidth]
    · by_cases h2 : x = 2
      · subst h2
        cases dir <;> cases iInv <;> cases oInv <;>
          simp_all [xdrOk, xdrI, xdrO, xdrT, _get_xdr_buffer, hasI, hasO, hasT, xorVal,
            sigWidth]
      · exfalso
        simp_all [xdrOk, _get_xdr_buffer, h0, h1, h2]

/-- Witness for C6 at a concrete io pin of width 3 with xdr 2. -/
theorem C6_witness :
    xdrOk ⟨"w6", .io, 3, 2⟩ none none = true ∧
    (xdrI ⟨"w6", .io, 3, 2⟩ none none).isSome = hasI PinDir.io ∧
    (xdrT ⟨"w6", .io, 3, 2⟩ none none).isSome = hasT PinDir.io :=
  ⟨rfl, (C6_amended ⟨"w6", .io, 3, 2⟩ none none rfl).1,
   (C6_amended ⟨"w6", .io, 3, 2⟩ none none rfl).2.2.1⟩

/-- C7: device "LFE5U-25F" resolves to the flag "--25k" and package "BG381"
to "CABGA381" (the table entry upper-cased); device "LFE5UM5G-85F" resolves
to "--um5g-85k" and package "MG285" to "CSFBGA285". Both lookups are pure
functions of their key, so every invocation yields the same flags. -/
theorem C7_device_package_resolution :
    _nextpnr_device_options.lookup "LFE5U-25F" = some "--25k" ∧
    (_nextpnr_package_options.lookup "BG381").map upperFilter = some "CABGA381" ∧
    _nextpnr_device_options.lookup "LFE5UM5G-85F" = some "--um5g-85k" ∧
    (_nextpnr_package_options.lookup "MG285").map upperFilter = some "CSFBGA285" := by
  decide

/-- C8: the device catalog has exactly 12 entries and the package catalog 5;
for every device key absent from the device catalog, rendering the command
templates raises a key error naming that device; and whenever either the
device or the package key is absent from its catalog, no toolchain command
list is produced. -/
theorem C8_unknown_key :
    _nextpnr_device_options.length = 12 ∧
    _nextpnr_package_options.length = 5 ∧
    (∀ o d p s n, _nextpnr_device_options.lookup d = none →
      command_templates o d p s n = .error ("KeyError: " ++ d)) ∧
    (∀ o d p s n, (_nextpnr_device_options.lookup d = none ∨
        _nextpnr_package_options.lookup p = none) →
      ∀ ls, command_templates o d p s n ≠ .ok ls) := by
  refine ⟨by decide, by decide, ?_, ?_⟩
  · intro o d p s n h
    simp [command_templates, nextpnrCommand, h, Bind.bind, Except.bind]
  · intro o d p s n h ls
    rcases h with h | h
    · simp [command_templates, nextpnrCommand, h, Bind.bind, Except.bind]
    · cases hd : _nextpnr_device_options.lookup d <;>
        simp [command_templates, nextpnrCommand, h, hd, Bind.bind, Except.bind]

/-- Witness for C8 at the out-of-catalog device "LFE5U-99F". -/
theorem C8_witness :
    command_templates noOverrides "LFE5U-99F" "BG381" "6" "top"
      = .error ("KeyError: " ++ "LFE5U-99F") :=
  C8_unknown_key.2.2.1 noOverrides "LFE5U-99F" "BG381" "6" "top" rfl

/-- C9 counterexample: with the script-insertion override omitted, the
rendered Yosys script contains the literal line
"# (script_after_read placeholder)", which is not empty — stray placeholder
text does appear in the artifact. -/
theorem C9_cex :
    "# (script_after_read placeholder)" ∈ ysScript "top" [] [] [] none none ∧
    "# (script_after_read placeholder)" ≠ "" := by
  exact ⟨by simp [ysScript, overrideDefault], by decide⟩

/-- C9 as amended: the toolchain stage list is always rendered in the fixed
order [yosys, nextpnr-ecp5, ecppack]; omitting an extra-flag list override
(yosys_opts, nextpnr_opts) renders exactly the same commands as supplying an
empty list (the insertion point contributes nothing); but omitting a
script-insertion override (script_after_read, script_after_synth) inserts a
placeholder comment line into the Yosys script rather than leaving the
insertion point empty. -/
theorem C9_amended :
    (∀ o d p s n ls, command_templates o d p s n = .ok ls →
      ls.map commandTool = ["yosys", "nextpnr-ecp5", "ecppack"]) ∧
    (∀ v d p s n,
      command_templates { verbose := v, yosys_opts := none, nextpnr_opts := none } d p s n =
      command_templates { verbose := v, yosys_opts := some [],
                          nextpnr_opts := some [] } d p s n) ∧
    (∀ name extraFiles readOpts synthOpts,
      "# (script_after_read placeholder)" ∈
        ysScript name extraFiles readOpts synthOpts none none ∧
      "# (script_after_synth placeholder)" ∈
        ysScript name extraFiles readOpts synthOpts none none) := by
  refine ⟨?_, ?_, ?_⟩
  · intro o d p s n ls h
    cases hd : _nextpnr_device_options.lookup d with
    | none => simp [command_templates, nextpnrCommand, hd, Bind.bind, Except.bind] at h
    | some df =>
      cases hp : _nextpnr_package_options.lookup p with
      | none =>
        simp [command_templates, nextpnrCommand, hd, hp, Bind.bind, Except.bind] at h
      | some pf =>
        simp only [command_templates, nextpnrCommand, hd, hp, Bind.bind, Except.bind,
          Except.ok.injEq] at h
        subst h
        simp [commandTool, yosysCommand, ecppackCommand]
  · intro v d p s n
    cases hd : _nextpnr_device_options.lookup d <;>
      cases hp : _nextpnr_package_options.lookup p <;>
        simp [command_templates, nextpnrCommand, yosysCommand, ecppackCommand,
          hd, hp, Bind.bind, Except.bind]
  · intro name extraFiles readOpts synthOpts
    exact ⟨by simp [ysScript, overrideDefault], by simp [ysScript, overrideDefault]⟩

/-- Witness for C9 at a concrete successful rendering. -/
theorem C9_witness :
    command_templates noOverrides "LFE5U-45F" "BG756" "7" "t9" =
      .ok [["yosys", "-q", "-l", "t9.rpt", "t9.ys"],
           ["nextpnr-ecp5", "--quiet", "--log", "t9.tim", "--45k", "--package",
            "CABGA756", "--speed", "7", "--json", "t9.json", "--lpf", "t9.lpf",
            "--textcfg", "t9.config"],
           ["ecppack", "--input", "t9.config", "--bit", "t9.bit", "--svf", "t9.svf"]] ∧
    List.map commandTool
        [["yosys", "-q", "-l", "t9.rpt", "t9.ys"],
         ["nextpnr-ecp5", "--quiet", "--log", "t9.tim", "--45k", "--package",
          "CABGA756", "--speed", "7", "--json", "t9.json", "--lpf", "t9.lpf",
          "--textcfg", "t9.config"],
         ["ecppack", "--input", "t9.config", "--bit", "t9.bit", "--svf", "t9.svf"]]
      = ["yosys", "nextpnr-ecp5", "ecppack"] :=
  ⟨rfl, C9_amended.1 noOverrides "LFE5U-45F" "BG756" "7" "t9" _ rfl⟩

/-- C10: a port whose attributes lack an "IO_TYPE" key is treated as having
the default single-ended standard "LVCMOS25" and is never skipped; skipping
happens exactly when the IO_TYPE value is a differential standard and the
component is "n"; the positive component "p" is never skipped; and
"LVCMOS25" is a single-ended standard, not a differential one. -/
theorem C10_should_skip :
    (∀ attrs comp, attrs.lookup "IO_TYPE" = none →
      should_skip_port_component attrs comp = false) ∧
    (∀ attrs comp, should_skip_port_component attrs comp = true ↔
      (_differential_io_types.contains ((attrs.lookup "IO_TYPE").getD "LVCMOS25") = true
        ∧ comp = "n")) ∧
    (∀ attrs, should_skip_port_component attrs "p" = false) ∧
    _single_ended_io_types.contains "LVCMOS25" = true ∧
    _differential_io_types.contains "LVCMOS25" = false := by
  refine ⟨?_, ?_, ?_, by decide, by decide⟩
  · intro attrs comp h
    have hmem : "LVCMOS25" ∉ _differential_io_types := by decide
    simp [should_skip_port_component, h, hmem]
  · intro attrs comp
    simp [should_skip_port_component]
  · intro attrs
    simp [should_skip_port_component]

/-- Witness for C10 on an attribute set without an IO_TYPE key. -/
theorem C10_witness :
    should_skip_port_component [] "n" = false :=
  C10_should_skip.1 [] "n" rfl

end ECP5
